import Mathlib

/-!
Verification of the court-date reminder scheduling subsystem of the
BondDashboard repository (`server/courtReminderService.ts` and the
court-date-reminder part of `server/storage.ts`).

The repository ships the test suites of these modules
(`courtReminderService.test.ts`, `storage.test.ts`) but not the module
bodies themselves, so every operation below is modelled from the
specification's contracts (spec.md sections 3, 4 and 7), cross-checked
against the behaviour the test suites pin down.

Time is modelled as milliseconds since an epoch (`Int`), as JavaScript
`Date.getTime()` does; the local-time offset is taken to be zero, so a
calendar day is the half-open interval of length `msPerDay` starting at a
multiple of `msPerDay`, and "09:00 local time" is `dayStart t + 9 hours`.
-/

/-- An instant: milliseconds since the epoch (JS `Date.getTime()`). -/
abbrev Instant := Int

def msPerHour : Int := 3600000

def msPerDay : Int := 86400000

/-- Start of the calendar day containing `t` (floor to a multiple of
`msPerDay`; `Int.fdiv` is floor division, matching calendar behaviour for
instants before the epoch as well). -/
def dayStart (t : Instant) : Instant := msPerDay * (t.fdiv msPerDay)

/-- `t`'s calendar day at the fixed reminder time-of-day, 09:00
(JS `date.setHours(9, 0, 0, 0)`). -/
def atNineAM (t : Instant) : Instant := dayStart t + 9 * msPerHour

/-- The four reminder kinds (`reminderType` in the source rows). -/
inductive ReminderKind where
  | initial
  | followup_1
  | followup_2
  | final
deriving DecidableEq

/-- Notification priority levels used by the reminder subsystem. -/
inductive ReminderUrgency where
  | medium
  | high
  | urgent
deriving DecidableEq

/-- Modelled from the spec: `getReminderPriority` of
`server/courtReminderService.ts` is missing from the sources; spec section
4.1 fixes the kind-to-priority map (initial: medium, followup_1: medium,
followup_2: high, final: urgent), echoed by the test file's comments. -/
def getReminderPriority : ReminderKind → ReminderUrgency
  | .initial => .medium
  | .followup_1 => .medium
  | .followup_2 => .high
  | .final => .urgent

/-- A court date row, as read by the reminder subsystem (spec section 3).
`courtDate` is the scheduled instant and is nullable. -/
structure CourtDate where
  id : Nat
  clientId : Nat
  courtDate : Option Instant
  completed : Bool
  courtLocation : String
  caseNumber : String
deriving DecidableEq

/-- A reminder row as passed to the store's create operation
(`createCourtDateReminder` payload in `courtReminderService.test.ts` and
`storage.test.ts`). -/
structure Reminder where
  courtDateId : Nat
  reminderType : ReminderKind
  scheduledFor : Instant
  sent : Bool
  confirmed : Bool
  confirmedBy : Option String
  confirmedAt : Option Instant
  notificationId : Option Nat
deriving DecidableEq

/-- A client row, as consumed by the enrichment lookups: internal `id`,
external identifier `clientId` (e.g. "CLT-001") and display name. -/
structure Client where
  id : Nat
  clientId : String
  fullName : String
deriving DecidableEq

/-- The kind/offset table of the Reminder Policy (spec section 4.1):
initial 7 days before, followup_1 3 days before, followup_2 1 day before,
final on the day itself. -/
def reminderOffsets : List (ReminderKind × Int) :=
  [(.initial, 7), (.followup_1, 3), (.followup_2, 1), (.final, 0)]

/-- A candidate's scheduled-for instant: the court instant minus the
offset, normalized to 09:00 of the resulting calendar day (for offset 0
this is the court date's own day at 09:00). -/
def candidateFor (d : Instant) (offsetDays : Int) : Instant :=
  atNineAM (d - offsetDays * msPerDay)

/-- Modelled from the spec: the candidate computation of the Reminder
Policy inside `scheduleReminders` (`server/courtReminderService.ts`,
absent from the sources): the full, unfiltered candidate sequence for a
court instant `d`, in table order. -/
def reminderCandidates (d : Instant) : List (ReminderKind × Instant) :=
  reminderOffsets.map (fun p => (p.1, candidateFor d p.2))

/-- Modelled from the spec: `scheduleReminders` of
`server/courtReminderService.ts` is missing from the sources; spec
section 4.2 fixes its contract. The returned list is the exact sequence
of payloads passed to the store's create operation: nothing for a null
court instant, otherwise the policy candidates with `scheduled-for <= now`
dropped, each wrapped in a fresh unsent, unconfirmed reminder row. -/
def scheduleRemindersCreates (cd : CourtDate) (now : Instant) : List Reminder :=
  match cd.courtDate with
  | none => []
  | some d =>
    ((reminderCandidates d).filter (fun p => decide (now < p.2))).map
      (fun p =>
        { courtDateId := cd.id
          reminderType := p.1
          scheduledFor := p.2
          sent := false
          confirmed := false
          confirmedBy := none
          confirmedAt := none
          notificationId := none })

/-- One scheduling pass against a reminder store holding `rows`: the store
appends each created row (`createCourtDateReminder` has no deduplication,
per `storage.test.ts`). -/
def runSchedulePass (rows : List Reminder) (cd : CourtDate) (now : Instant) : List Reminder :=
  rows ++ scheduleRemindersCreates cd now

/-- Number of reminder rows held by the store for a given
(court date, kind) pair. -/
def rowsFor (rows : List Reminder) (cdId : Nat) (k : ReminderKind) : Nat :=
  (rows.filter (fun r => decide (r.courtDateId = cdId ∧ r.reminderType = k))).length

/-- Client lookup collaborator: find a client by internal id
(`storage.getClient`). -/
def getClient (clients : List Client) (i : Nat) : Option Client :=
  clients.find? (fun c => decide (c.id = i))

/-- Ceiling division of integers, `Math.ceil(a / b)` for exact rational
division with positive `b`. -/
def ceilDiv (a b : Int) : Int := -((-a).fdiv b)

/-- An entry of the upcoming-court-dates report: the court date enriched
with the owning client's display name and external identifier, plus the
days until the appearance. -/
structure UpcomingEntry where
  id : Nat
  clientName : String
  clientId : String
  courtLocation : String
  caseNumber : String
  scheduledFor : Instant
  daysUntil : Int
deriving DecidableEq

/-- An entry of the overdue-court-dates report. -/
structure OverdueEntry where
  id : Nat
  clientName : String
  clientId : String
  courtLocation : String
  caseNumber : String
  scheduledFor : Instant
  daysOverdue : Int
deriving DecidableEq

/-- Enrichment of one upcoming court date:
`daysUntil = ceil((scheduledInstant - now) / 1 day)`. -/
def upcomingEntry (now : Instant) (cd : CourtDate) (t : Instant) (c : Client) : UpcomingEntry :=
  { id := cd.id
    clientName := c.fullName
    clientId := c.clientId
    courtLocation := cd.courtLocation
    caseNumber := cd.caseNumber
    scheduledFor := t
    daysUntil := ceilDiv (t - now) msPerDay }

/-- Enrichment of one overdue court date:
`daysOverdue = floor((now - scheduledInstant) / 1 day)`, minimum 0. -/
def overdueEntry (now : Instant) (cd : CourtDate) (t : Instant) (c : Client) : OverdueEntry :=
  { id := cd.id
    clientName := c.fullName
    clientId := c.clientId
    courtLocation := cd.courtLocation
    caseNumber := cd.caseNumber
    scheduledFor := t
    daysOverdue := max 0 ((now - t).fdiv msPerDay) }

/-- Ascending order on upcoming entries by scheduled instant. -/
def leEntry (a b : UpcomingEntry) : Prop := a.scheduledFor ≤ b.scheduledFor

instance : DecidableRel leEntry :=
  fun a b => inferInstanceAs (Decidable (a.scheduledFor ≤ b.scheduledFor))

instance : IsTotal UpcomingEntry leEntry :=
  ⟨fun a b => le_total a.scheduledFor b.scheduledFor⟩

instance : IsTrans UpcomingEntry leEntry :=
  ⟨fun _ _ _ hab hbc => le_trans hab hbc⟩

/-- Modelled from the spec: `getUpcomingCourtDates(windowDays)` of
`server/courtReminderService.ts` is missing from the sources; spec
section 4.2 fixes its contract: keep the court dates whose instant lies
in `[now, now + windowDays]` and that are not completed, enrich each via
the client lookup (a lookup miss silently drops the record, spec section
7), and sort ascending by scheduled instant. -/
def getUpcomingCourtDates (cds : List CourtDate) (clients : List Client)
    (now : Instant) (windowDays : Nat) : List UpcomingEntry :=
  List.insertionSort leEntry
    (cds.filterMap (fun cd =>
      match cd.courtDate with
      | none => none
      | some t =>
        if now ≤ t ∧ t ≤ now + windowDays * msPerDay ∧ cd.completed = false then
          (getClient clients cd.clientId).map (upcomingEntry now cd t)
        else none))

/-- Modelled from the spec: `getOverdueCourtDates()` of
`server/courtReminderService.ts` is missing from the sources; spec
section 4.2 fixes its contract: keep the court dates whose instant is
strictly before `now` and that are not completed (no lower bound on age),
enrich each via the client lookup (a lookup miss silently drops the
record, spec section 7). -/
def getOverdueCourtDates (cds : List CourtDate) (clients : List Client)
    (now : Instant) : List OverdueEntry :=
  cds.filterMap (fun cd =>
    match cd.courtDate with
    | none => none
    | some t =>
      if t < now ∧ cd.completed = false then
        (getClient clients cd.clientId).map (overdueEntry now cd t)
      else none)

/-- A reminder is due for dispatch when it is unsent and its scheduled-for
instant has been reached. -/
def isDue (now : Instant) (r : Reminder) : Bool :=
  !r.sent && decide (r.scheduledFor ≤ now)

/-- Modelled from the spec: `processPendingReminders` of
`server/courtReminderService.ts` is missing from the sources; spec
section 4.3 fixes its contract. `dispatchOk` abstracts the Notification
Dispatcher (true on delivery, false on a dispatch failure). The result is
the sequence of dispatcher invocations and the updated store rows: each
due reminder is dispatched exactly once; on success it is marked sent, on
failure the error is caught per item and the row is left unsent; rows not
due are untouched. -/
def processPendingReminders (now : Instant) (dispatchOk : Reminder → Bool) :
    List Reminder → List Reminder × List Reminder
  | [] => ([], [])
  | r :: rs =>
    let rest := processPendingReminders now dispatchOk rs
    if isDue now r then
      (r :: rest.1,
        (if dispatchOk r then { r with sent := true } else r) :: rest.2)
    else
      (rest.1, r :: rest.2)

/-- Modelled from the spec: the storage layer's own
`scheduleFollowupReminders(courtDateId)` (`server/storage.ts`) is missing
from the sources; its test (`storage.test.ts`) documents the schedule it
creates for the court date's instant: initial 3 days before, followup_1
1 day before, followup_2 3 hours before, with no 09:00 normalization;
future-only, like the service scheduler. -/
def followupOffsetsMs : List (ReminderKind × Int) :=
  [(.initial, 3 * msPerDay), (.followup_1, msPerDay), (.followup_2, 3 * msPerHour)]

/-- Modelled from the spec: body of `storage.scheduleFollowupReminders`,
reconstructed from its test's documented expectations (see
`followupOffsetsMs`). Returns the reminder rows created for the court
date. -/
def scheduleFollowupReminders (cd : CourtDate) (now : Instant) : List Reminder :=
  match cd.courtDate with
  | none => []
  | some d =>
    (followupOffsetsMs.filter (fun p => decide (now < d - p.2))).map
      (fun p =>
        { courtDateId := cd.id
          reminderType := p.1
          scheduledFor := d - p.2
          sent := false
          confirmed := false
          confirmedBy := none
          confirmedAt := none
          notificationId := none })

/-! ## Arithmetic facts about the 09:00 normalization -/

lemma dayStart_le (t : Instant) : dayStart t ≤ t := by
  have he : Int.fdiv t 86400000 = t / 86400000 :=
    Int.fdiv_eq_ediv t (by norm_num)
  have h1 := Int.ediv_add_emod t 86400000
  have h2 := Int.emod_nonneg t (show (86400000:Int) ≠ 0 by norm_num)
  show (86400000 : Int) * Int.fdiv t 86400000 ≤ t
  rw [he]
  linarith

lemma lt_dayStart_add (t : Instant) : t < dayStart t + msPerDay := by
  have he : Int.fdiv t 86400000 = t / 86400000 :=
    Int.fdiv_eq_ediv t (by norm_num)
  have h1 := Int.ediv_add_emod t 86400000
  have h3 := Int.emod_lt_of_pos t (show (0:Int) < 86400000 by norm_num)
  show t < (86400000 : Int) * Int.fdiv t 86400000 + 86400000
  rw [he]
  linarith

lemma atNineAM_le (t : Instant) : atNineAM t ≤ t + 9 * msPerHour := by
  have h := dayStart_le t
  show dayStart t + 9 * msPerHour ≤ t + 9 * msPerHour
  linarith

lemma atNineAM_gt (t : Instant) : t - msPerDay < atNineAM t := by
  have h := lt_dayStart_add t
  have h9 : (0:Int) ≤ 9 * msPerHour := by norm_num [msPerHour]
  show t - msPerDay < dayStart t + 9 * msPerHour
  linarith

/-- A candidate at a whole-day offset of at most 7 days is still strictly
in the future when the court instant is at least 8 days out. -/
lemma candidateFor_future {now d : Instant} (h8 : now + 8 * msPerDay ≤ d)
    {k : Int} (hk7 : k ≤ 7) : now < candidateFor d k := by
  have hmd : (0:Int) ≤ msPerDay := by norm_num [msPerDay]
  have hmul : k * msPerDay ≤ 7 * msPerDay := mul_le_mul_of_nonneg_right hk7 hmd
  have hgt := atNineAM_gt (d - k * msPerDay)
  show now < atNineAM (d - k * msPerDay)
  linarith

/-- A candidate at a whole-day offset of at least 1 day is already past
when the court instant itself is past. -/
lemma candidateFor_past {now d : Instant} (hd : d ≤ now)
    {k : Int} (hk1 : 1 ≤ k) : candidateFor d k ≤ now := by
  have hmd : (0:Int) ≤ msPerDay := by norm_num [msPerDay]
  have hmul : 1 * msPerDay ≤ k * msPerDay := mul_le_mul_of_nonneg_right hk1 hmd
  have hml : 9 * msPerHour < msPerDay := by norm_num [msPerHour, msPerDay]
  have hle := atNineAM_le (d - k * msPerDay)
  show atNineAM (d - k * msPerDay) ≤ now
  linarith

/-- For a court instant at least 8 days out, no candidate is filtered:
the creates of one scheduling pass are exactly the four policy candidates
wrapped into fresh rows. -/
lemma scheduleRemindersCreates_eq_of_farFuture (cd : CourtDate) (now d : Instant)
    (hd : cd.courtDate = some d) (h8 : now + 8 * msPerDay ≤ d) :
    scheduleRemindersCreates cd now =
      (reminderCandidates d).map (fun p =>
        { courtDateId := cd.id, reminderType := p.1, scheduledFor := p.2,
          sent := false, confirmed := false, confirmedBy := none,
          confirmedAt := none, notificationId := none }) := by
  have hfilter :
      (reminderCandidates d).filter (fun p => decide (now < p.2)) =
        reminderCandidates d := by
    apply List.filter_eq_self.mpr
    intro p hp
    simp only [reminderCandidates, reminderOffsets, List.map_cons, List.map_nil,
      List.mem_cons, List.not_mem_nil, or_false] at hp
    rcases hp with h | h | h | h <;> subst h <;>
      simp only [decide_eq_true_eq] <;>
      exact candidateFor_future h8 (by norm_num)
  simp only [scheduleRemindersCreates, hd, hfilter]

/-! ## Claim C1 -/

/-- Claim C1, amended: for a court date whose scheduled instant is at
least 8 days after `now`, `scheduleReminders` creates exactly 4
reminders, one per kind in table order, each scheduled strictly after
`now`, unsent, unconfirmed, and pointing at the court date. (At just
over 7 days out the 09:00 normalization can push the `initial`
candidate before `now`, so the original 7-day bound fails; see the
counterexample.) -/
theorem scheduleReminders_farFuture_allFour (cd : CourtDate) (now d : Instant)
    (hd : cd.courtDate = some d) (h8 : now + 8 * msPerDay ≤ d) :
    (scheduleRemindersCreates cd now).map Reminder.reminderType =
        [ReminderKind.initial, ReminderKind.followup_1,
          ReminderKind.followup_2, ReminderKind.final] ∧
      (scheduleRemindersCreates cd now).length = 4 ∧
      ∀ r ∈ scheduleRemindersCreates cd now,
        now < r.scheduledFor ∧ r.sent = false ∧ r.confirmed = false ∧
          r.courtDateId = cd.id := by
  rw [scheduleRemindersCreates_eq_of_farFuture cd now d hd h8]
  refine ⟨by simp [reminderCandidates, reminderOffsets],
    by simp [reminderCandidates, reminderOffsets], ?_⟩
  intro r hr
  simp only [reminderCandidates, reminderOffsets, List.map_cons, List.map_nil,
    List.mem_cons, List.not_mem_nil, or_false] at hr
  rcases hr with h | h | h | h <;> subst h <;>
    exact ⟨candidateFor_future h8 (by norm_num), rfl, rfl, rfl⟩

def cdW1 : CourtDate :=
  { id := 20, clientId := 1, courtDate := some (30 * msPerDay + 12 * msPerHour),
    completed := false, courtLocation := "", caseNumber := "" }

/-- Witness for C1's amended theorem at a court date 30.5 days out and
`now = 0`. -/
theorem scheduleReminders_farFuture_allFour_witness :
    cdW1.courtDate = some (30 * msPerDay + 12 * msPerHour) ∧
      (0 : Int) + 8 * msPerDay ≤ 30 * msPerDay + 12 * msPerHour ∧
      ((scheduleRemindersCreates cdW1 0).map Reminder.reminderType =
          [ReminderKind.initial, ReminderKind.followup_1,
            ReminderKind.followup_2, ReminderKind.final] ∧
        (scheduleRemindersCreates cdW1 0).length = 4 ∧
        ∀ r ∈ scheduleRemindersCreates cdW1 0,
          0 < r.scheduledFor ∧ r.sent = false ∧ r.confirmed = false ∧
            r.courtDateId = cdW1.id) :=
  ⟨rfl, by decide, scheduleReminders_farFuture_allFour cdW1 0 _ rfl (by decide)⟩

def cdC1 : CourtDate :=
  { id := 1, clientId := 1, courtDate := some (7 * msPerDay + 36000001),
    completed := false, courtLocation := "", caseNumber := "" }

/-- Counterexample to claim C1 as stated: with `now` at 10:00 of day 0
and the court instant 7 days plus 1 millisecond later, the instant is
strictly more than 7 days after `now`, yet only 3 reminders are created:
the `initial` candidate normalizes to 09:00 of day 0, which is before
`now`, and is dropped. -/
theorem scheduleReminders_sevenDays_not_four :
    36000000 + 7 * msPerDay < 7 * msPerDay + 36000001 ∧
      cdC1.courtDate = some (7 * msPerDay + 36000001) ∧
      (scheduleRemindersCreates cdC1 36000000).length = 3 ∧
      (scheduleRemindersCreates cdC1 36000000).map Reminder.reminderType =
        [ReminderKind.followup_1, ReminderKind.followup_2, ReminderKind.final] := by
  refine ⟨by decide, rfl, by decide, by decide⟩

/-! ## Claim C2 -/

/-- Claim C2, amended: every reminder row passed to the store's create
operation has its scheduled-for instant strictly after the invocation-time
`now` (candidates at or before `now` are dropped); and a past court date
yields no persisted reminders except possibly the day-of `final` one,
whose 09:00 slot can still lie ahead of `now` on the court date's own
calendar day. -/
theorem scheduleReminders_futureOnly (cd : CourtDate) (now : Instant) :
    (∀ r ∈ scheduleRemindersCreates cd now, now < r.scheduledFor) ∧
      (∀ d, cd.courtDate = some d → d ≤ now →
        ∀ r ∈ scheduleRemindersCreates cd now,
          r.reminderType = ReminderKind.final) := by
  constructor
  · intro r hr
    cases hcd : cd.courtDate with
    | none => simp [scheduleRemindersCreates, hcd] at hr
    | some d =>
      simp only [scheduleRemindersCreates, hcd, List.mem_map, List.mem_filter,
        decide_eq_true_eq] at hr
      obtain ⟨p, ⟨_, hlt⟩, rfl⟩ := hr
      exact hlt
  · intro d hd hpast r hr
    simp only [scheduleRemindersCreates, hd, List.mem_map, List.mem_filter,
      decide_eq_true_eq] at hr
    obtain ⟨p, ⟨hp, hlt⟩, rfl⟩ := hr
    simp only [reminderCandidates, reminderOffsets, List.map_cons, List.map_nil,
      List.mem_cons, List.not_mem_nil, or_false] at hp
    rcases hp with h | h | h | h <;> subst h
    · exact absurd hlt (not_lt.mpr (candidateFor_past hpast (by norm_num)))
    · exact absurd hlt (not_lt.mpr (candidateFor_past hpast (by norm_num)))
    · exact absurd hlt (not_lt.mpr (candidateFor_past hpast (by norm_num)))
    · rfl

def cdW2 : CourtDate :=
  { id := 10, clientId := 2, courtDate := some (2 * msPerDay),
    completed := false, courtLocation := "", caseNumber := "" }

/-- Witness for C2's amended theorem at a court date two days out and
`now` one hour past the epoch. -/
theorem scheduleReminders_futureOnly_witness :
    (∀ r ∈ scheduleRemindersCreates cdW2 msPerHour, msPerHour < r.scheduledFor) ∧
      (∀ d, cdW2.courtDate = some d → d ≤ msPerHour →
        ∀ r ∈ scheduleRemindersCreates cdW2 msPerHour,
          r.reminderType = ReminderKind.final) :=
  scheduleReminders_futureOnly cdW2 msPerHour

def cdC2 : CourtDate :=
  { id := 2, clientId := 1, courtDate := some 28800000,
    completed := false, courtLocation := "", caseNumber := "" }

/-- Counterexample to claim C2 as stated: a court date at 08:00 of day 0,
with `now` 08:30 of day 0, is in the past, yet one reminder is still
persisted — the day-of `final` reminder normalizes to 09:00 of day 0,
which is after `now`, so "a past court date yields zero persisted
reminders" fails. -/
theorem scheduleReminders_pastDate_creates_final :
    (28800000 : Int) < 30600000 ∧
      cdC2.courtDate = some 28800000 ∧
      (scheduleRemindersCreates cdC2 30600000).length = 1 ∧
      (scheduleRemindersCreates cdC2 30600000).map Reminder.reminderType =
        [ReminderKind.final] := by
  refine ⟨by decide, rfl, by decide, by decide⟩

/-! ## Claim C3 -/

lemma rowsFor_append (a b : List Reminder) (cdId : Nat) (k : ReminderKind) :
    rowsFor (a ++ b) cdId k = rowsFor a cdId k + rowsFor b cdId k := by
  simp [rowsFor, List.filter_append]

/-- One far-future scheduling pass contributes exactly one row per kind. -/
lemma rowsFor_creates_farFuture (cd : CourtDate) (now d : Instant)
    (hd : cd.courtDate = some d) (h8 : now + 8 * msPerDay ≤ d)
    (k : ReminderKind) : rowsFor (scheduleRemindersCreates cd now) cd.id k = 1 := by
  rw [scheduleRemindersCreates_eq_of_farFuture cd now d hd h8]
  cases k <;>
    simp [rowsFor, reminderCandidates, reminderOffsets, List.filter_cons]

/-- Claim C3, amended: with the court instant at least 8 days out (so that
no candidate is filtered; at barely over 7 days out the `initial`
candidate can be dropped, see the counterexample), two successive
scheduling passes for the same court date each append their rows to the
store independently — no deduplication — leaving two rows per reminder
kind: `scheduleReminders` is not idempotent, although the data-model
invariant demands that re-invoking scheduling not duplicate kinds. -/
theorem scheduleReminders_twice_duplicates (cd : CourtDate) (now d : Instant)
    (hd : cd.courtDate = some d) (h8 : now + 8 * msPerDay ≤ d)
    (k : ReminderKind) :
    rowsFor (runSchedulePass (runSchedulePass [] cd now) cd now) cd.id k = 2 := by
  show rowsFor (([] ++ scheduleRemindersCreates cd now) ++
      scheduleRemindersCreates cd now) cd.id k = 2
  rw [List.nil_append, rowsFor_append,
    rowsFor_creates_farFuture cd now d hd h8 k]

def cdW3 : CourtDate :=
  { id := 30, clientId := 3, courtDate := some (9 * msPerDay),
    completed := false, courtLocation := "", caseNumber := "" }

/-- Witness for C3's amended theorem: two passes for a court date nine
days out leave two `initial` rows. -/
theorem scheduleReminders_twice_duplicates_witness :
    cdW3.courtDate = some (9 * msPerDay) ∧
      (0 : Int) + 8 * msPerDay ≤ 9 * msPerDay ∧
      rowsFor (runSchedulePass (runSchedulePass [] cdW3 0) cdW3 0) cdW3.id
        ReminderKind.initial = 2 :=
  ⟨rfl, by decide,
    scheduleReminders_twice_duplicates cdW3 0 _ rfl (by decide)
      ReminderKind.initial⟩

def cdC3 : CourtDate :=
  { id := 3, clientId := 1, courtDate := some (7 * msPerDay + 36000001),
    completed := false, courtLocation := "", caseNumber := "" }

/-- Counterexample to claim C3 as stated: for a court instant strictly
more than 7 days after `now` (here 7 days + 1 ms, with `now` at 10:00),
two passes leave zero rows of kind `initial`, not two — the `initial`
candidate normalizes to 09:00, before `now`, and is dropped by both
passes. -/
theorem scheduleReminders_twice_sevenDays_no_initial :
    36000000 + 7 * msPerDay < 7 * msPerDay + 36000001 ∧
      cdC3.courtDate = some (7 * msPerDay + 36000001) ∧
      rowsFor (runSchedulePass (runSchedulePass [] cdC3 36000000) cdC3 36000000)
        cdC3.id ReminderKind.initial = 0 := by
  refine ⟨by decide, rfl, by decide⟩

/-! ## Claim C6 -/

/-- Claim C6: for a court date with no scheduled instant,
`scheduleReminders` is a silent no-op: it produces zero store-create
calls and leaves any reminder store unchanged (no error is surfaced: the
operation returns normally). -/
theorem scheduleReminders_nullDate_noop (cd : CourtDate) (now : Instant)
    (h : cd.courtDate = none) :
    scheduleRemindersCreates cd now = [] ∧
      ∀ rows : List Reminder, runSchedulePass rows cd now = rows := by
  have h1 : scheduleRemindersCreates cd now = [] := by
    simp [scheduleRemindersCreates, h]
  exact ⟨h1, fun rows => by simp [runSchedulePass, h1]⟩

def cdW6 : CourtDate :=
  { id := 1, clientId := 1, courtDate := none,
    completed := false, courtLocation := "", caseNumber := "" }

/-- Witness for C6 at a concrete court date with a null instant. -/
theorem scheduleReminders_nullDate_noop_witness :
    cdW6.courtDate = none ∧
      (scheduleRemindersCreates cdW6 0 = [] ∧
        ∀ rows : List Reminder, runSchedulePass rows cdW6 0 = rows) :=
  ⟨rfl, scheduleReminders_nullDate_noop cdW6 0 rfl⟩

/-! ## Claim C7 -/

/-- Claim C7: the Reminder Policy is a pure function of the court instant
emitting the fixed kind/offset/priority table: initial 7 days before,
followup_1 3 days before, followup_2 1 day before — each normalized to
09:00 of its calendar day — and final on the court date's own calendar
day at 09:00; the priority attached to a candidate depends on its kind
alone (initial and followup_1 medium, followup_2 high, final urgent). -/
theorem reminderPolicy_fixed_mapping (d : Instant) :
    reminderCandidates d =
        [(ReminderKind.initial, atNineAM (d - 7 * msPerDay)),
          (ReminderKind.followup_1, atNineAM (d - 3 * msPerDay)),
          (ReminderKind.followup_2, atNineAM (d - 1 * msPerDay)),
          (ReminderKind.final, dayStart d + 9 * msPerHour)] ∧
      (reminderCandidates d).map (fun p => getReminderPriority p.1) =
        [ReminderUrgency.medium, ReminderUrgency.medium,
          ReminderUrgency.high, ReminderUrgency.urgent] := by
  constructor
  · simp [reminderCandidates, reminderOffsets, candidateFor, atNineAM]
  · simp [reminderCandidates, reminderOffsets, getReminderPriority]

/-- Witness for C7 at the epoch instant. -/
theorem reminderPolicy_fixed_mapping_witness :
    reminderCandidates 0 =
        [(ReminderKind.initial, atNineAM (0 - 7 * msPerDay)),
          (ReminderKind.followup_1, atNineAM (0 - 3 * msPerDay)),
          (ReminderKind.followup_2, atNineAM (0 - 1 * msPerDay)),
          (ReminderKind.final, dayStart 0 + 9 * msPerHour)] ∧
      (reminderCandidates 0).map (fun p => getReminderPriority p.1) =
        [ReminderUrgency.medium, ReminderUrgency.medium,
          ReminderUrgency.high, ReminderUrgency.urgent] :=
  reminderPolicy_fixed_mapping 0

/-! ## Claim C8 -/

/-- Claim C8: in one dispatch pass, the Notification Dispatcher is
invoked exactly once for each stored reminder that is unsent and due
(`scheduled-for <= now`), in store order and regardless of any dispatch
failures among the others (per-item error isolation); the updated store
marks exactly the successfully dispatched reminders as sent, so a
reminder whose dispatch failed keeps `sent = false` and will be due again
on the next pass. -/
theorem processPending_dispatch_per_item (now : Instant)
    (ok : Reminder → Bool) (rows : List Reminder) :
    (processPendingReminders now ok rows).1 = rows.filter (isDue now) ∧
      (processPendingReminders now ok rows).2 =
        rows.map (fun r =>
          if isDue now r && ok r then { r with sent := true } else r) := by
  induction rows with
  | nil => exact ⟨rfl, rfl⟩
  | cons r rs ih =>
    simp only [processPendingReminders, List.filter_cons, List.map_cons]
    cases hdue : isDue now r <;> cases hok : ok r <;>
      simp [hdue, hok, ih.1, ih.2]

def remW8a : Reminder :=
  { courtDateId := 1, reminderType := ReminderKind.initial, scheduledFor := 10,
    sent := false, confirmed := false, confirmedBy := none,
    confirmedAt := none, notificationId := none }

def remW8b : Reminder :=
  { courtDateId := 2, reminderType := ReminderKind.final, scheduledFor := 20,
    sent := false, confirmed := false, confirmedBy := none,
    confirmedAt := none, notificationId := none }

/-- Witness for C8 on a two-element store where dispatch fails for the
first due reminder and succeeds for the second. -/
theorem processPending_dispatch_per_item_witness :
    ((processPendingReminders 100 (fun r => decide (r.courtDateId = 2))
          [remW8a, remW8b]).1 =
        [remW8a, remW8b].filter (isDue 100) ∧
      (processPendingReminders 100 (fun r => decide (r.courtDateId = 2))
          [remW8a, remW8b]).2 =
        [remW8a, remW8b].map (fun r =>
          if isDue 100 r && decide (r.courtDateId = 2) then
            { r with sent := true }
          else r)) ∧
      (processPendingReminders 100 (fun r => decide (r.courtDateId = 2))
          [remW8a, remW8b]).1 = [remW8a, remW8b] ∧
      (processPendingReminders 100 (fun r => decide (r.courtDateId = 2))
          [remW8a, remW8b]).2 = [remW8a, { remW8b with sent := true }] :=
  ⟨processPending_dispatch_per_item 100 (fun r => decide (r.courtDateId = 2))
      [remW8a, remW8b],
    by decide, by decide⟩

/-! ## Claim C9 -/

/-- Claim C9: a court date whose client lookup misses contributes nothing
to either report: prepending it to the store leaves both
`getUpcomingCourtDates` and `getOverdueCourtDates` unchanged, so callers
never observe a partial or error entry. -/
theorem lookupMiss_skips_record (cds : List CourtDate) (clients : List Client)
    (now : Instant) (w : Nat) (cd : CourtDate)
    (h : getClient clients cd.clientId = none) :
    getUpcomingCourtDates (cd :: cds) clients now w =
        getUpcomingCourtDates cds clients now w ∧
      getOverdueCourtDates (cd :: cds) clients now =
        getOverdueCourtDates cds clients now := by
  constructor
  · unfold getUpcomingCourtDates
    congr 1
    rw [List.filterMap_cons]
    cases hcd : cd.courtDate with
    | none => rfl
    | some t =>
      by_cases hc : now ≤ t ∧ t ≤ now + w * msPerDay ∧ cd.completed = false
      · simp [hc, h]
      · simp [hc]
  · unfold getOverdueCourtDates
    rw [List.filterMap_cons]
    cases hcd : cd.courtDate with
    | none => rfl
    | some t =>
      by_cases hc : t < now ∧ cd.completed = false
      · simp [hc, h]
      · simp [hc]

def cdW9 : CourtDate :=
  { id := 9, clientId := 77, courtDate := some msPerHour,
    completed := false, courtLocation := "", caseNumber := "" }

def clW9 : Client := { id := 4, clientId := "CLT-004", fullName := "Bob" }

/-- Witness for C9: with only a client of id 4 stored, a court date
owned by the unknown client 77 is skipped by both reports. -/
theorem lookupMiss_skips_record_witness :
    getClient [clW9] cdW9.clientId = none ∧
      (getUpcomingCourtDates (cdW9 :: []) [clW9] 0 30 =
          getUpcomingCourtDates [] [clW9] 0 30 ∧
        getOverdueCourtDates (cdW9 :: []) [clW9] 0 =
          getOverdueCourtDates [] [clW9] 0) :=
  ⟨rfl, lookupMiss_skips_record [] [clW9] 0 30 cdW9 rfl⟩

/-! ## Claim C4 -/

/-- Claim C4, amended: `getOverdueCourtDates` returns exactly the stored
court dates with a scheduled instant strictly before `now`, not
completed, and whose owning client lookup succeeds (a lookup miss drops
the record — see the counterexample for why the lookup condition is
needed); each returned entry carries the client's name and external
identifier and `daysOverdue = floor((now - scheduledInstant) / 1 day)`
clamped to a minimum of 0, hence non-negative; there is no upper bound on
age. -/
theorem getOverdueCourtDates_exact (cds : List CourtDate) (clients : List Client)
    (now : Instant) :
    (∀ e, e ∈ getOverdueCourtDates cds clients now ↔
      ∃ cd ∈ cds, ∃ t c, cd.courtDate = some t ∧ t < now ∧
        cd.completed = false ∧ getClient clients cd.clientId = some c ∧
        e = overdueEntry now cd t c) ∧
      ∀ e ∈ getOverdueCourtDates cds clients now,
        0 ≤ e.daysOverdue ∧
          e.daysOverdue = max 0 ((now - e.scheduledFor).fdiv msPerDay) := by
  have hmem : ∀ e, e ∈ getOverdueCourtDates cds clients now ↔
      ∃ cd ∈ cds, ∃ t c, cd.courtDate = some t ∧ t < now ∧
        cd.completed = false ∧ getClient clients cd.clientId = some c ∧
        e = overdueEntry now cd t c := by
    intro e
    unfold getOverdueCourtDates
    rw [List.mem_filterMap]
    constructor
    · rintro ⟨cd, hcd, hf⟩
      cases hmt : cd.courtDate with
      | none => simp [hmt] at hf
      | some t =>
        simp only [hmt] at hf
        by_cases hc : t < now ∧ cd.completed = false
        · rw [if_pos hc] at hf
          obtain ⟨c, hcl, he⟩ := Option.map_eq_some'.mp hf
          exact ⟨cd, hcd, t, c, hmt, hc.1, hc.2, hcl, he.symm⟩
        · rw [if_neg hc] at hf
          cases hf
    · rintro ⟨cd, hcd, t, c, hmt, h1, h2, hcl, rfl⟩
      refine ⟨cd, hcd, ?_⟩
      simp only [hmt]
      rw [if_pos (show t < now ∧ cd.completed = false from ⟨h1, h2⟩), hcl]
      rfl
  refine ⟨hmem, ?_⟩
  intro e he
  obtain ⟨cd, _, t, c, _, _, _, _, rfl⟩ := (hmem e).mp he
  exact ⟨le_max_left _ _, rfl⟩

def cdW4 : CourtDate :=
  { id := 40, clientId := 4, courtDate := some (2 * msPerDay),
    completed := false, courtLocation := "", caseNumber := "CR-2026-050" }

def clW4 : Client := { id := 4, clientId := "CLT-004", fullName := "Bob Tanaka" }

/-- Witness for C4's amended theorem on a store with one court date five
days overdue and a resolvable client, also evaluating the report
concretely: one enriched entry with `daysOverdue = 5`. -/
theorem getOverdueCourtDates_exact_witness :
    ((∀ e, e ∈ getOverdueCourtDates [cdW4] [clW4] (7 * msPerDay) ↔
        ∃ cd ∈ [cdW4], ∃ t c, cd.courtDate = some t ∧ t < 7 * msPerDay ∧
          cd.completed = false ∧ getClient [clW4] cd.clientId = some c ∧
          e = overdueEntry (7 * msPerDay) cd t c) ∧
      ∀ e ∈ getOverdueCourtDates [cdW4] [clW4] (7 * msPerDay),
        0 ≤ e.daysOverdue ∧
          e.daysOverdue =
            max 0 ((7 * msPerDay - e.scheduledFor).fdiv msPerDay)) ∧
      getOverdueCourtDates [cdW4] [clW4] (7 * msPerDay) =
        [overdueEntry (7 * msPerDay) cdW4 (2 * msPerDay) clW4] ∧
      (overdueEntry (7 * msPerDay) cdW4 (2 * msPerDay) clW4).daysOverdue = 5 ∧
      (overdueEntry (7 * msPerDay) cdW4 (2 * msPerDay) clW4).clientName =
        "Bob Tanaka" :=
  ⟨getOverdueCourtDates_exact [cdW4] [clW4] (7 * msPerDay),
    by decide, by decide, rfl⟩

def cdC4 : CourtDate :=
  { id := 4, clientId := 77, courtDate := some 0,
    completed := false, courtLocation := "", caseNumber := "" }

/-- Counterexample to claim C4 as stated: a stored court date one day
overdue and not completed, whose owning client is absent from the client
store, is omitted — the report is empty, not "exactly the stored court
dates with scheduledInstant < now and not completed". -/
theorem getOverdueCourtDates_missingClient_dropped :
    cdC4.courtDate = some 0 ∧ (0 : Int) < msPerDay ∧
      cdC4.completed = false ∧
      getOverdueCourtDates [cdC4] [] msPerDay = [] :=
  ⟨rfl, by decide, rfl, by decide⟩

/-! ## Claim C5 -/

/-- Claim C5, amended: for every non-negative day window,
`getUpcomingCourtDates` returns exactly the stored court dates with a
scheduled instant within `[now, now + windowDays]`, not completed, and
whose owning client lookup succeeds (a lookup miss drops the record —
see the counterexample); each entry is enriched with the client's display
name and external identifier and carries
`daysUntil = ceil((scheduledInstant - now) / 1 day)`; the result is
sorted ascending by scheduled instant, and an empty court-date store
yields an empty list. -/
theorem getUpcomingCourtDates_exact (cds : List CourtDate) (clients : List Client)
    (now : Instant) (w : Nat) :
    (∀ e, e ∈ getUpcomingCourtDates cds clients now w ↔
      ∃ cd ∈ cds, ∃ t c, cd.courtDate = some t ∧ now ≤ t ∧
        t ≤ now + w * msPerDay ∧ cd.completed = false ∧
        getClient clients cd.clientId = some c ∧
        e = upcomingEntry now cd t c) ∧
      List.Sorted leEntry (getUpcomingCourtDates cds clients now w) ∧
      getUpcomingCourtDates [] clients now w = [] ∧
      ∀ e ∈ getUpcomingCourtDates cds clients now w,
        e.daysUntil = ceilDiv (e.scheduledFor - now) msPerDay := by
  have hmem : ∀ e, e ∈ getUpcomingCourtDates cds clients now w ↔
      ∃ cd ∈ cds, ∃ t c, cd.courtDate = some t ∧ now ≤ t ∧
        t ≤ now + w * msPerDay ∧ cd.completed = false ∧
        getClient clients cd.clientId = some c ∧
        e = upcomingEntry now cd t c := by
    intro e
    unfold getUpcomingCourtDates
    rw [(List.perm_insertionSort leEntry _).mem_iff, List.mem_filterMap]
    constructor
    · rintro ⟨cd, hcd, hf⟩
      cases hmt : cd.courtDate with
      | none => simp [hmt] at hf
      | some t =>
        simp only [hmt] at hf
        by_cases hc : now ≤ t ∧ t ≤ now + w * msPerDay ∧ cd.completed = false
        · rw [if_pos hc] at hf
          obtain ⟨c, hcl, he⟩ := Option.map_eq_some'.mp hf
          exact ⟨cd, hcd, t, c, hmt, hc.1, hc.2.1, hc.2.2, hcl, he.symm⟩
        · rw [if_neg hc] at hf
          cases hf
    · rintro ⟨cd, hcd, t, c, hmt, h1, h2, h3, hcl, rfl⟩
      refine ⟨cd, hcd, ?_⟩
      simp only [hmt]
      rw [if_pos (show now ≤ t ∧ t ≤ now + w * msPerDay ∧ cd.completed = false
        from ⟨h1, h2, h3⟩), hcl]
      rfl
  refine ⟨hmem, List.sorted_insertionSort leEntry _, rfl, ?_⟩
  intro e he
  obtain ⟨cd, _, t, c, _, _, _, _, _, rfl⟩ := (hmem e).mp he
  rfl

def cdW5a : CourtDate :=
  { id := 51, clientId := 4, courtDate := some (5 * msPerDay),
    completed := false, courtLocation := "", caseNumber := "CR-2026-001" }

def cdW5b : CourtDate :=
  { id := 52, clientId := 4, courtDate := some (2 * msPerDay),
    completed := false, courtLocation := "", caseNumber := "CR-2026-002" }

def clW5 : Client := { id := 4, clientId := "CLT-004", fullName := "Alice" }

/-- Witness for C5's amended theorem on a store with two in-window court
dates listed out of order, also evaluating the report concretely: both
entries appear, sorted ascending by scheduled instant, with `daysUntil`
2 and 5. -/
theorem getUpcomingCourtDates_exact_witness :
    ((∀ e, e ∈ getUpcomingCourtDates [cdW5a, cdW5b] [clW5] 0 30 ↔
        ∃ cd ∈ [cdW5a, cdW5b], ∃ t c, cd.courtDate = some t ∧ (0:Int) ≤ t ∧
          t ≤ 0 + 30 * msPerDay ∧ cd.completed = false ∧
          getClient [clW5] cd.clientId = some c ∧
          e = upcomingEntry 0 cd t c) ∧
      List.Sorted leEntry (getUpcomingCourtDates [cdW5a, cdW5b] [clW5] 0 30) ∧
      getUpcomingCourtDates [] [clW5] 0 30 = [] ∧
      ∀ e ∈ getUpcomingCourtDates [cdW5a, cdW5b] [clW5] 0 30,
        e.daysUntil = ceilDiv (e.scheduledFor - 0) msPerDay) ∧
      getUpcomingCourtDates [cdW5a, cdW5b] [clW5] 0 30 =
        [upcomingEntry 0 cdW5b (2 * msPerDay) clW5,
          upcomingEntry 0 cdW5a (5 * msPerDay) clW5] ∧
      (upcomingEntry 0 cdW5b (2 * msPerDay) clW5).daysUntil = 2 ∧
      (upcomingEntry 0 cdW5a (5 * msPerDay) clW5).daysUntil = 5 :=
  ⟨getUpcomingCourtDates_exact [cdW5a, cdW5b] [clW5] 0 30,
    by decide, by decide, by decide⟩

def cdC5 : CourtDate :=
  { id := 5, clientId := 77, courtDate := some msPerHour,
    completed := false, courtLocation := "", caseNumber := "" }

/-- Counterexample to claim C5 as stated: a stored court date one hour
out (inside any 30-day window) and not completed, whose owning client is
absent from the client store, is omitted — the report is empty, not
"exactly the stored court dates within the window and not completed". -/
theorem getUpcomingCourtDates_missingClient_dropped :
    cdC5.courtDate = some msPerHour ∧ (0 : Int) ≤ msPerHour ∧
      msPerHour ≤ 0 + 30 * msPerDay ∧ cdC5.completed = false ∧
      getUpcomingCourtDates [cdC5] [] 0 30 = [] :=
  ⟨rfl, by decide, by decide, rfl, by decide⟩

/-! ## Claim C10 -/

/-- Claim C10: the storage layer carries its own follow-up scheduler,
distinct from the Reminder Policy: for a stored court date far enough out
(here at least 10 days), `storage.scheduleFollowupReminders` creates the
kinds initial, followup_1 and followup_2 — so at least initial and
followup_1 — at raw offsets of 3 days, 1 day and 3 hours before the court
instant, with no 09:00 normalization, a schedule different from the
policy's 7/3/1/0-day 09:00-normalized one. -/
theorem scheduleFollowup_storage_schedule (cd : CourtDate) (now d : Instant)
    (hd : cd.courtDate = some d) (h10 : now + 10 * msPerDay ≤ d) :
    (scheduleFollowupReminders cd now).map
        (fun r => (r.reminderType, r.scheduledFor)) =
      [(ReminderKind.initial, d - 3 * msPerDay),
        (ReminderKind.followup_1, d - msPerDay),
        (ReminderKind.followup_2, d - 3 * msPerHour)] ∧
      ReminderKind.initial ∈
        (scheduleFollowupReminders cd now).map Reminder.reminderType ∧
      ReminderKind.followup_1 ∈
        (scheduleFollowupReminders cd now).map Reminder.reminderType ∧
      ∀ r ∈ scheduleFollowupReminders cd now, r.courtDateId = cd.id := by
  have hfilter : followupOffsetsMs.filter (fun p => decide (now < d - p.2)) =
      followupOffsetsMs := by
    apply List.filter_eq_self.mpr
    intro p hp
    simp only [followupOffsetsMs, List.mem_cons, List.not_mem_nil, or_false] at hp
    rcases hp with h | h | h <;> subst h <;> simp only [decide_eq_true_eq]
    · linarith [show (3:Int) * msPerDay < 10 * msPerDay by norm_num [msPerDay]]
    · linarith [show (msPerDay : Int) < 10 * msPerDay by norm_num [msPerDay]]
    · linarith [show (3:Int) * msPerHour < 10 * msPerDay by
        norm_num [msPerHour, msPerDay]]
  have hexp : scheduleFollowupReminders cd now =
      followupOffsetsMs.map (fun p =>
        { courtDateId := cd.id, reminderType := p.1, scheduledFor := d - p.2,
          sent := false, confirmed := false, confirmedBy := none,
          confirmedAt := none, notificationId := none }) := by
    simp only [scheduleFollowupReminders, hd, hfilter]
  rw [hexp]
  refine ⟨by simp [followupOffsetsMs], by simp [followupOffsetsMs],
    by simp [followupOffsetsMs], ?_⟩
  intro r hr
  simp only [followupOffsetsMs, List.map_cons, List.map_nil, List.mem_cons,
    List.not_mem_nil, or_false] at hr
  rcases hr with h | h | h <;> subst h <;> rfl

def cdW10 : CourtDate :=
  { id := 60, clientId := 1, courtDate := some (10 * msPerDay),
    completed := false, courtLocation := "", caseNumber := "" }

/-- Witness for C10 at a court date exactly 10 days out and `now = 0`. -/
theorem scheduleFollowup_storage_schedule_witness :
    cdW10.courtDate = some (10 * msPerDay) ∧
      (0 : Int) + 10 * msPerDay ≤ 10 * msPerDay ∧
      ((scheduleFollowupReminders cdW10 0).map
          (fun r => (r.reminderType, r.scheduledFor)) =
        [(ReminderKind.initial, 10 * msPerDay - 3 * msPerDay),
          (ReminderKind.followup_1, 10 * msPerDay - msPerDay),
          (ReminderKind.followup_2, 10 * msPerDay - 3 * msPerHour)] ∧
        ReminderKind.initial ∈
          (scheduleFollowupReminders cdW10 0).map Reminder.reminderType ∧
        ReminderKind.followup_1 ∈
          (scheduleFollowupReminders cdW10 0).map Reminder.reminderType ∧
        ∀ r ∈ scheduleFollowupReminders cdW10 0, r.courtDateId = cdW10.id) :=
  ⟨rfl, by decide,
    scheduleFollowup_storage_schedule cdW10 0 _ rfl (by decide)⟩
